import Mathlib

/-!
Verification of the gamification and streak-accrual engine of the
Health-Tracker application.

The repository's route handlers (`src/app.py`) call a gamification module
(`services/gamification_service.py`: `update_user_streak`,
`check_achievements`, awarding) whose source is not present under `src/`;
only its callers and the ORM models (`src/models.py`) are. Following the
specification, the missing operations are modelled here from the spec's
own algorithm descriptions (sections 4.1-4.3), and marked as such in their
doc comments. The data shapes come from `src/models.py`; calendar dates
are modelled as integers counting whole days, so a difference of dates is
the gap in whole calendar days.
-/

namespace HealthTracker

/-- Achievement catalog entry, from `src/models.py` class `Achievement`:
an id, a point value, a `requirement_type` string and a
`requirement_value` threshold. Fields irrelevant to the claims
(name, description, badge image, category) are omitted. -/
structure Achievement where
  id : Nat
  points : Nat
  requirement_type : String
  requirement_value : Nat
  deriving Repr, DecidableEq

/-- Persisted award record, from `src/models.py` class `UserAchievement`:
the achievement id, the `earned_at` timestamp and the `displayed` flag
(the `user_id` key is implicit: records live inside the owning user's
state). -/
structure AwardRecord where
  achievement_id : Nat
  earned_at : Nat
  displayed : Bool
  deriving Repr, DecidableEq

/-- Per-user gamification state, from `src/models.py` class `User`
(gamification columns `current_streak`, `longest_streak`,
`last_activity_date`, `total_points`, `level`) together with the user's
list of `UserAchievement` rows and `Notification` rows (the latter kept
as the list of achievement ids notified about). -/
@[ext]
structure UserState where
  current_streak : Nat
  longest_streak : Nat
  last_activity_date : Option Int
  total_points : Nat
  level : Nat
  awards : List AwardRecord
  notifications : List Nat
  deriving Repr, DecidableEq

/-- A freshly registered user, from `src/app.py` `register` (which sets
none of the gamification columns) and the column defaults in
`src/models.py`: `current_streak=0`, `longest_streak=0`,
`last_activity_date` NULL, `total_points=0`, `level=1`, and no
`UserAchievement` or `Notification` rows. -/
def registeredUser : UserState :=
  { current_streak := 0
    longest_streak := 0
    last_activity_date := none
    total_points := 0
    level := 1
    awards := []
    notifications := [] }

/-- Result of a streak update, per spec section 4.1:
`StreakResult{current_streak, longest_streak, streak_changed}`. -/
structure StreakResult where
  current_streak : Nat
  longest_streak : Nat
  streak_changed : Bool
  deriving Repr, DecidableEq

/-- Modelled from the spec: the Streak Tracker algorithm of section 4.1
(`update_user_streak` in `services/gamification_service.py` is not under
`src/`). With no prior activity date the streak becomes 1; otherwise
`gap_days = activity_date - last_activity_date`: gap 0 leaves the streak
unchanged, gap 1 increments it, gap > 1 resets it to 1, and a negative
gap (backdated entry) is ignored for streak purposes. Then
`longest_streak = max(longest_streak, current_streak)` and
`last_activity_date = max(last_activity_date, activity_date)`. -/
def updateStreakUser (u : UserState) (activity_date : Int) : UserState :=
  let cs : Nat :=
    match u.last_activity_date with
    | none => 1
    | some last =>
        let gap := activity_date - last
        if gap = 0 then u.current_streak
        else if gap = 1 then u.current_streak + 1
        else if gap > 1 then 1
        else u.current_streak
  let lad : Int :=
    match u.last_activity_date with
    | none => activity_date
    | some last => max last activity_date
  { u with
    current_streak := cs
    longest_streak := max u.longest_streak cs
    last_activity_date := some lad }

/-- Error kinds of the core, per spec section 7. -/
inductive GamError where
  | NotFoundError
  | ConflictError
  | ValidationError
  deriving Repr, DecidableEq

/-- The user store of the persistence interface (spec section 6):
user ids mapped to user states. -/
def Store := List (Nat × UserState)

/-- `get_user` of the persistence interface: first record with the
given id. -/
def get_user (s : Store) (user_id : Nat) : Option UserState :=
  (List.find? (fun p => p.1 = user_id) s).map (fun p => p.2)

/-- `update_user` of the persistence interface: replace the state stored
under the given id. -/
def update_user (s : Store) (user_id : Nat) (u : UserState) : Store :=
  List.map (fun p => if p.1 = user_id then (user_id, u) else p) s

/-- Modelled from the spec: the Streak Tracker entry point of section 4.1,
`update_streak(user_id, activity_date) -> StreakResult`, failing with
`NotFoundError` when `user_id` does not exist (the service module is not
under `src/`). -/
def update_streak (s : Store) (user_id : Nat) (activity_date : Int) :
    Except GamError (Store × StreakResult) :=
  match get_user s user_id with
  | none => .error .NotFoundError
  | some u =>
      let u' := updateStreakUser u activity_date
      .ok (update_user s user_id u',
        { current_streak := u'.current_streak
          longest_streak := u'.longest_streak
          streak_changed := decide (u'.current_streak ≠ u.current_streak) })

/-- Modelled from the spec: metric resolution of section 4.2. A `streak`
requirement reads the user's `current_streak`; the other requirement
types (`total_steps`, `total_logs`, `goal_count`, ...) are aggregates
computed by external read-only collaborators, modelled by the
`aggregate` function (`aggregate_metric` of section 6). -/
def resolveMetric (u : UserState) (aggregate : String → Nat)
    (requirement_type : String) : Nat :=
  if requirement_type = "streak" then u.current_streak
  else aggregate requirement_type

/-- Whether the user already has an award record for the achievement id. -/
def hasAward (u : UserState) (achievement_id : Nat) : Bool :=
  u.awards.any (fun r => r.achievement_id = achievement_id)

/-- Modelled from the spec: the Achievement Evaluator of section 4.2
(`check_achievements` in the gamification service is not under `src/`).
`evaluate` walks the catalog in order, skips achievements already in the
user's award records, and keeps those whose resolved metric is at least
`requirement_value`; it returns their ids and persists nothing. -/
def evaluate (catalog : List Achievement) (aggregate : String → Nat)
    (u : UserState) : List Nat :=
  (catalog.filter (fun a =>
    !hasAward u a.id &&
    decide (a.requirement_value ≤ resolveMetric u aggregate a.requirement_type))).map
    (fun a => a.id)

/-- Modelled from the spec: the level step function of sections 3 and 4.3.
The spec fixes only that `level` is derived from `total_points` by a
fixed non-decreasing step table; a concrete monotone table (one level per
100 points, starting at level 1) is chosen here. -/
def levelOf (total_points : Nat) : Nat :=
  total_points / 100 + 1

/-- Per-id outcome of the Awarding Emitter, per spec section 4.3 (a
failure is reported per-id, not fatal to the batch). -/
inductive AwardOutcome where
  | awarded
  | duplicate
  | notFound
  deriving Repr, DecidableEq

/-- Modelled from the spec: one step of the Awarding Emitter of section
4.3. If an award record for the pair already exists the call is a silent
idempotent skip; if the achievement id is not in the catalog it is a
per-id `NotFoundError`; otherwise the record is inserted with
`displayed = false`, the point value is added to `total_points`, the
level is recomputed, and a notification is emitted. -/
def awardOne (catalog : List Achievement) (now : Nat) (u : UserState)
    (achievement_id : Nat) : UserState × AwardOutcome :=
  if hasAward u achievement_id then (u, .duplicate)
  else
    match catalog.find? (fun a => a.id = achievement_id) with
    | none => (u, .notFound)
    | some a =>
        let pts := u.total_points + a.points
        ({ u with
            awards := u.awards ++
              [{ achievement_id := achievement_id, earned_at := now, displayed := false }]
            total_points := pts
            level := levelOf pts
            notifications := u.notifications ++ [achievement_id] },
         .awarded)

/-- Modelled from the spec: the batch Awarding Emitter of section 4.3,
`award(user_id, achievement_ids) -> list of AwardResult`, processing the
ids left to right, each independently. -/
def award (catalog : List Achievement) (now : Nat) (u : UserState)
    (achievement_ids : List Nat) : UserState × List AwardOutcome :=
  achievement_ids.foldl
    (fun acc aid =>
      let step := awardOne catalog now acc.1 aid
      (step.1, acc.2 ++ [step.2]))
    (u, [])

/-- A gamification operation on one user's state: either a logged
activity driving the Streak Tracker, or an Awarding Emitter batch. -/
inductive Op where
  | logActivity (activity_date : Int)
  | awardIds (now : Nat) (achievement_ids : List Nat)
  deriving Repr, DecidableEq

/-- Apply one gamification operation to a user state. -/
def applyOp (catalog : List Achievement) (u : UserState) : Op → UserState
  | .logActivity d => updateStreakUser u d
  | .awardIds now ids => (award catalog now u ids).1

/-- Run a sequence of gamification operations from a user state. -/
def runOps (catalog : List Achievement) (u : UserState) (ops : List Op) :
    UserState :=
  ops.foldl (applyOp catalog) u

/-- The point value an award record contributes, looked up in the
catalog (0 when the id is absent, which `awardOne` never produces). -/
def recordPoints (catalog : List Achievement) (r : AwardRecord) : Nat :=
  match catalog.find? (fun a => a.id = r.achievement_id) with
  | none => 0
  | some a => a.points

/-- Number of award records the user holds for one achievement id. -/
def awardCount (u : UserState) (achievement_id : Nat) : Nat :=
  (u.awards.filter (fun r => r.achievement_id = achievement_id)).length

/-! ### HealthData get-or-create path (`src/app.py`)

`add_nutrition_entry` (lines 216-260) and `add_activity_entry` (lines
263-304) contain the same inline block: when the form carries no
`health_data_id`, look up the user's `HealthData` row whose `date` falls
on today's calendar day and create a fresh row only when none exists.
`HealthData.date` is kept here as its calendar day (an integer), which
is all the lookup compares. -/

/-- A `HealthData` row, from `src/models.py` class `HealthData`; only the
columns the get-or-create path reads (`id`, `user_id` and the calendar
day of `date`) are kept. -/
structure HealthDataRec where
  id : Nat
  user_id : Nat
  day : Int
  deriving Repr, DecidableEq

/-- A `NutritionEntry` row, from `src/models.py`; only `id` and the
`health_data_id` foreign key matter to the claims. -/
structure NutritionRow where
  id : Nat
  health_data_id : Nat
  deriving Repr, DecidableEq

/-- An `ActivityEntry` row, from `src/models.py`; only `id` and the
`health_data_id` foreign key matter to the claims. -/
structure ActivityRow where
  id : Nat
  health_data_id : Nat
  deriving Repr, DecidableEq

/-- Database state the two entry endpoints touch: the `health_data`,
`nutrition_entries` and `activity_entries` tables, with the
auto-increment counters of their primary keys. -/
structure AppState where
  health_data : List HealthDataRec
  nutrition_entries : List NutritionRow
  activity_entries : List ActivityRow
  next_health_data_id : Nat
  next_entry_id : Nat
  deriving Repr, DecidableEq

/-- The handlers' guard `if not health_data_id:` — in Python a missing
form field gives `None` and both `None` and `0` are falsy. -/
def missingId : Option Nat → Bool
  | none => true
  | some n => n = 0

/-- The lookup `HealthData.query.filter_by(user_id=...).filter(date(HealthData.date) == today).first()`
from `src/app.py` lines 228-232 and 275-279. -/
def findTodayHealthData (s : AppState) (user_id : Nat) (today : Int) :
    Option HealthDataRec :=
  s.health_data.find? (fun r => r.user_id = user_id && r.day = today)

/-- The get-or-create block of `src/app.py` lines 225-239 (and its
verbatim copy at lines 272-286): reuse today's `HealthData` row when one
exists, otherwise insert a fresh one for today; return its id. -/
def getOrCreateToday (s : AppState) (user_id : Nat) (today : Int) :
    AppState × Nat :=
  match findTodayHealthData s user_id today with
  | some r => (s, r.id)
  | none =>
      ({ s with
          health_data := s.health_data ++
            [{ id := s.next_health_data_id, user_id := user_id, day := today }]
          next_health_data_id := s.next_health_data_id + 1 },
       s.next_health_data_id)

/-- The `/add-nutrition` handler of `src/app.py` lines 216-260: resolve
the `health_data_id` (get-or-create when missing), then insert one
`NutritionEntry` row pointing at it. -/
def add_nutrition_entry (s : AppState) (user_id : Nat)
    (health_data_id : Option Nat) (today : Int) : AppState :=
  let resolved :=
    if missingId health_data_id then getOrCreateToday s user_id today
    else (s, health_data_id.getD 0)
  let s1 := resolved.1
  { s1 with
    nutrition_entries := s1.nutrition_entries ++
      [{ id := s1.next_entry_id, health_data_id := resolved.2 }]
    next_entry_id := s1.next_entry_id + 1 }

/-- The `/add-activity` handler of `src/app.py` lines 263-304: same
resolution, then insert one `ActivityEntry` row. -/
def add_activity_entry (s : AppState) (user_id : Nat)
    (health_data_id : Option Nat) (today : Int) : AppState :=
  let resolved :=
    if missingId health_data_id then getOrCreateToday s user_id today
    else (s, health_data_id.getD 0)
  let s1 := resolved.1
  { s1 with
    activity_entries := s1.activity_entries ++
      [{ id := s1.next_entry_id, health_data_id := resolved.2 }]
    next_entry_id := s1.next_entry_id + 1 }

/-- One call of either entry endpoint: which endpoint, the session user,
the optional form `health_data_id`, and the calendar day at call time. -/
inductive EntryOp where
  | nutrition (user_id : Nat) (health_data_id : Option Nat) (today : Int)
  | activity (user_id : Nat) (health_data_id : Option Nat) (today : Int)
  deriving Repr, DecidableEq

/-- Apply one entry-endpoint call to the database state. -/
def applyEntryOp (s : AppState) : EntryOp → AppState
  | .nutrition uid hid today => add_nutrition_entry s uid hid today
  | .activity uid hid today => add_activity_entry s uid hid today

/-- Run a sequence of entry-endpoint calls. -/
def runEntryOps (s : AppState) (ops : List EntryOp) : AppState :=
  ops.foldl applyEntryOp s

/-- Number of `HealthData` rows a user has on one calendar day. -/
def healthDataCount (s : AppState) (user_id : Nat) (day : Int) : Nat :=
  (s.health_data.filter (fun r => r.user_id = user_id && r.day = day)).length

/-! ### Sample states used by witnesses -/

/-- A user mid-streak: 3-day current streak, 5-day longest, last active
on day 10. -/
def sampleUser : UserState :=
  { current_streak := 3
    longest_streak := 5
    last_activity_date := some 10
    total_points := 0
    level := 1
    awards := []
    notifications := [] }

/-- A two-entry streak catalog: 5-day badge worth 20 points, 7-day badge
worth 30 points. -/
def sampleCatalog : List Achievement :=
  [{ id := 1, points := 20, requirement_type := "streak", requirement_value := 5 },
   { id := 2, points := 30, requirement_type := "streak", requirement_value := 7 }]

/-- An empty database for the entry endpoints. -/
def emptyApp : AppState :=
  { health_data := []
    nutrition_entries := []
    activity_entries := []
    next_health_data_id := 1
    next_entry_id := 1 }

/-! ### Projection lemmas for `updateStreakUser` -/

theorem updateStreak_current (u : UserState) (d : Int) :
    (updateStreakUser u d).current_streak =
      match u.last_activity_date with
      | none => 1
      | some last =>
          if d - last = 0 then u.current_streak
          else if d - last = 1 then u.current_streak + 1
          else if d - last > 1 then 1
          else u.current_streak := rfl

theorem updateStreak_longest (u : UserState) (d : Int) :
    (updateStreakUser u d).longest_streak =
      max u.longest_streak (updateStreakUser u d).current_streak := rfl

theorem updateStreak_lad (u : UserState) (d : Int) :
    (updateStreakUser u d).last_activity_date =
      some (match u.last_activity_date with
            | none => d
            | some last => max last d) := rfl

theorem updateStreak_points (u : UserState) (d : Int) :
    (updateStreakUser u d).total_points = u.total_points := rfl

theorem updateStreak_level (u : UserState) (d : Int) :
    (updateStreakUser u d).level = u.level := rfl

theorem updateStreak_awards (u : UserState) (d : Int) :
    (updateStreakUser u d).awards = u.awards := rfl

theorem updateStreak_notifs (u : UserState) (d : Int) :
    (updateStreakUser u d).notifications = u.notifications := rfl

/-! ### Claims about the Streak Tracker -/

/-- C2: with a prior `last_activity_date`, `update_streak` leaves
`current_streak` unchanged on a 0-day gap, increments it by exactly 1 on
a 1-day gap, and resets it to 1 (not 0) on a gap greater than 1 day;
with no prior activity date it sets `current_streak` to 1. -/
theorem update_streak_gap_cases (u : UserState) (d : Int) :
    (u.last_activity_date = none → (updateStreakUser u d).current_streak = 1) ∧
    (∀ l, u.last_activity_date = some l →
      (d - l = 0 → (updateStreakUser u d).current_streak = u.current_streak) ∧
      (d - l = 1 → (updateStreakUser u d).current_streak = u.current_streak + 1) ∧
      (1 < d - l → (updateStreakUser u d).current_streak = 1)) := by
  refine ⟨fun h => ?_, fun l h => ⟨fun hg => ?_, fun hg => ?_, fun hg => ?_⟩⟩ <;>
    rw [updateStreak_current, h]
  · simp [hg]
  · simp [hg]
  · have h0 : ¬ d - l = 0 := by omega
    have h1 : ¬ d - l = 1 := by omega
    simp [h0, h1, hg]

/-- Witness for C2: from `sampleUser` (streak 3, last active day 10),
logging day 11 increments the streak to 4, day 10 leaves it at 3, and
day 13 resets it to 1. -/
theorem update_streak_gap_cases_witness :
    (updateStreakUser sampleUser 10).current_streak = sampleUser.current_streak ∧
    (updateStreakUser sampleUser 11).current_streak = sampleUser.current_streak + 1 ∧
    (updateStreakUser sampleUser 13).current_streak = 1 :=
  ⟨((update_streak_gap_cases sampleUser 10).2 10 rfl).1 (by decide),
   ((update_streak_gap_cases sampleUser 11).2 10 rfl).2.1 (by decide),
   ((update_streak_gap_cases sampleUser 13).2 10 rfl).2.2 (by decide)⟩

/-- C3: after every `update_streak` call, `longest_streak` equals
`max(longest_streak, current_streak)` and so is at least
`current_streak`. -/
theorem longest_ge_current_after_update (u : UserState) (d : Int) :
    (updateStreakUser u d).longest_streak =
      max u.longest_streak (updateStreakUser u d).current_streak ∧
    (updateStreakUser u d).current_streak ≤ (updateStreakUser u d).longest_streak :=
  ⟨rfl, le_max_right _ _⟩

/-- C7: a backdated activity (strictly earlier than the stored
`last_activity_date`) never decreases `current_streak` or
`longest_streak`, and `last_activity_date` is persisted as the max of
the stored and the new date (so it is never moved backwards). -/
theorem backdated_no_regress (u : UserState) (l d : Int)
    (h : u.last_activity_date = some l) (hlt : d < l) :
    u.current_streak ≤ (updateStreakUser u d).current_streak ∧
    u.longest_streak ≤ (updateStreakUser u d).longest_streak ∧
    (updateStreakUser u d).last_activity_date = some (max l d) := by
  have h0 : ¬ d - l = 0 := by omega
  have h1 : ¬ d - l = 1 := by omega
  have h2 : ¬ 1 < d - l := by omega
  refine ⟨?_, ?_, ?_⟩
  · rw [updateStreak_current, h]
    simp [h0, h1, h2]
  · rw [updateStreak_longest]
    exact le_max_left _ _
  · rw [updateStreak_lad, h]

/-- Witness for C7: from `sampleUser` (last active day 10), logging the
backdated day 7 keeps the streaks and keeps `last_activity_date` at
day 10. -/
theorem backdated_no_regress_witness :
    sampleUser.current_streak ≤ (updateStreakUser sampleUser 7).current_streak ∧
    sampleUser.longest_streak ≤ (updateStreakUser sampleUser 7).longest_streak ∧
    (updateStreakUser sampleUser 7).last_activity_date = some (max 10 7) :=
  backdated_no_regress sampleUser 10 7 rfl (by decide)

/-- C8: `update_streak` fails with `NotFoundError` exactly when the user
id does not exist in the store, and `NotFoundError` is the only error it
ever surfaces. -/
theorem update_streak_notfound_iff (s : Store) (user_id : Nat) (d : Int) :
    (update_streak s user_id d = .error .NotFoundError ↔ get_user s user_id = none) ∧
    (∀ e, update_streak s user_id d = .error e → e = .NotFoundError) := by
  rcases h : get_user s user_id with _ | u <;> simp [update_streak, h]

/-- Witness for C8: on an empty store, updating user 1 fails with
`NotFoundError`. -/
theorem update_streak_notfound_iff_witness :
    update_streak ([] : Store) 1 0 = .error .NotFoundError :=
  (update_streak_notfound_iff ([] : Store) 1 0).1.mpr rfl

/-- C9: a freshly registered user starts with `current_streak = 0` (not
1), `longest_streak = 0`, `total_points = 0`, `level = 1` and no
`last_activity_date`, and the invariants `longest_streak ≥
current_streak` and `total_points = sum of award-record points` hold at
creation. -/
theorem registered_user_initial_state (catalog : List Achievement) :
    registeredUser.current_streak = 0 ∧ registeredUser.longest_streak = 0 ∧
    registeredUser.total_points = 0 ∧ registeredUser.level = 1 ∧
    registeredUser.last_activity_date = none ∧
    registeredUser.current_streak ≤ registeredUser.longest_streak ∧
    registeredUser.total_points =
      (registeredUser.awards.map (recordPoints catalog)).sum :=
  ⟨rfl, rfl, rfl, rfl, rfl, le_refl 0, rfl⟩

/-- Re-logging the same day the streak tracker already absorbed changes
the `current_streak` in no way: with the stored `last_activity_date`
already at least `d`, the gap is zero or negative and both branches keep
the streak. -/
theorem updateStreak_fix_current (u : UserState) (d : Int) :
    (updateStreakUser (updateStreakUser u d) d).current_streak =
      (updateStreakUser u d).current_streak := by
  rcases hu : u.last_activity_date with _ | l
  · have hlad : (updateStreakUser u d).last_activity_date = some d := by
      rw [updateStreak_lad, hu]
    rw [updateStreak_current, hlad]
    simp
  · have hlad : (updateStreakUser u d).last_activity_date = some (max l d) := by
      rw [updateStreak_lad, hu]
    rw [updateStreak_current, hlad]
    have hdle : d ≤ max l d := le_max_right l d
    by_cases h0 : d - max l d = 0
    · simp [h0]
    · have h1 : ¬ d - max l d = 1 := by omega
      have h2 : ¬ 1 < d - max l d := by omega
      simp [h0, h1, h2]

/-- A second `updateStreakUser` with the same date is a no-op on the
whole user state. -/
theorem updateStreak_fix (u : UserState) (d : Int) :
    updateStreakUser (updateStreakUser u d) d = updateStreakUser u d := by
  have hc := updateStreak_fix_current u d
  have hdle : ∀ L, (updateStreakUser u d).last_activity_date = some L → d ≤ L := by
    intro L hL
    rw [updateStreak_lad] at hL
    rcases hu : u.last_activity_date with _ | l <;> rw [hu] at hL <;> simp at hL
    · omega
    · rw [← hL]
      exact le_max_right l d
  rcases hlad : (updateStreakUser u d).last_activity_date with _ | L
  · rw [updateStreak_lad] at hlad
    simp at hlad
  · have hdL := hdle L hlad
    refine UserState.ext ?_ ?_ ?_ ?_ ?_ ?_ ?_
    · exact hc
    · rw [updateStreak_longest (updateStreakUser u d) d, hc,
        updateStreak_longest u d, max_assoc, max_self]
    · rw [updateStreak_lad (updateStreakUser u d) d, hlad]
      simp [max_eq_left hdL]
    · exact updateStreak_points _ d
    · exact updateStreak_level _ d
    · exact updateStreak_awards _ d
    · exact updateStreak_notifs _ d

/-- Folding further same-day logs over an already-updated state is the
identity. -/
theorem foldl_same_day (d : Int) :
    ∀ (ds : List Int), (∀ x ∈ ds, x = d) → ∀ u : UserState,
      List.foldl updateStreakUser (updateStreakUser u d) ds = updateStreakUser u d := by
  intro ds
  induction ds with
  | nil => intro _ u; rfl
  | cons a t ih =>
      intro h u
      have ha : a = d := h a (List.mem_cons_self a t)
      subst ha
      rw [List.foldl_cons, updateStreak_fix]
      exact ih (fun x hx => h x (List.mem_cons_of_mem a hx)) u

/-- C4: for any non-empty sequence of activity logs all carrying the same
calendar date, `current_streak` after running the streak tracker over the
whole sequence equals `current_streak` after the first log alone. -/
theorem same_day_sequence_idempotent (u : UserState) (d : Int) (ds : List Int)
    (h : ∀ x ∈ ds, x = d) :
    (List.foldl updateStreakUser u (d :: ds)).current_streak =
      (updateStreakUser u d).current_streak := by
  rw [List.foldl_cons, foldl_same_day d ds h u]

/-- Witness for C4: three same-day logs from `sampleUser` give the same
streak as the first alone. -/
theorem same_day_sequence_idempotent_witness :
    (List.foldl updateStreakUser sampleUser [5, 5, 5]).current_streak =
      (updateStreakUser sampleUser 5).current_streak :=
  same_day_sequence_idempotent sampleUser 5 [5, 5] (by decide)

/-! ### Awarding Emitter: at-most-once awards and point consistency -/

/-- Each user's award records carry pairwise distinct achievement ids:
the "(user, achievement) pair appears at most once" invariant. -/
def UniqueAwards (u : UserState) : Prop :=
  (u.awards.map (fun r => r.achievement_id)).Nodup

/-- The consistency check: `total_points` is the sum of the catalog
point values of the user's award records. -/
def PointsConsistent (catalog : List Achievement) (u : UserState) : Prop :=
  u.total_points = (u.awards.map (recordPoints catalog)).sum

/-- The state component of a batch award is the fold of the single-id
award over the ids. -/
theorem award_fst (catalog : List Achievement) (now : Nat) (ids : List Nat)
    (u : UserState) :
    (award catalog now u ids).1 =
      List.foldl (fun v aid => (awardOne catalog now v aid).1) u ids := by
  suffices h : ∀ (l : List Nat) (p : UserState × List AwardOutcome),
      (List.foldl (fun acc aid =>
        let step := awardOne catalog now acc.1 aid
        (step.1, acc.2 ++ [step.2])) p l).1 =
      List.foldl (fun v aid => (awardOne catalog now v aid).1) p.1 l by
    exact h ids (u, [])
  intro l
  induction l with
  | nil => intro p; rfl
  | cons a t ih => intro p; rw [List.foldl_cons, List.foldl_cons]; exact ih _

/-- Awarding a single id is a single `awardOne` step. -/
theorem award_singleton (catalog : List Achievement) (now : Nat)
    (u : UserState) (aid : Nat) :
    (award catalog now u [aid]).1 = (awardOne catalog now u aid).1 := rfl

/-- Duplicate branch of `awardOne`: an existing award record makes the
call a silent no-op. -/
theorem awardOne_dup (catalog : List Achievement) (now : Nat) (u : UserState)
    (aid : Nat) (h : hasAward u aid = true) :
    awardOne catalog now u aid = (u, .duplicate) := by
  simp [awardOne, h]

/-- Fresh-award branch of `awardOne`. -/
theorem awardOne_new (catalog : List Achievement) (now : Nat) (u : UserState)
    (aid : Nat) (a : Achievement) (h : hasAward u aid = false)
    (hf : catalog.find? (fun x => x.id = aid) = some a) :
    (awardOne catalog now u aid).1 =
      { u with
        awards := u.awards ++
          [{ achievement_id := aid, earned_at := now, displayed := false }]
        total_points := u.total_points + a.points
        level := levelOf (u.total_points + a.points)
        notifications := u.notifications ++ [aid] } := by
  simp [awardOne, h, hf]

/-- `hasAward` is membership of the id among the user's award-record
ids. -/
theorem hasAward_iff_mem (u : UserState) (aid : Nat) :
    hasAward u aid = true ↔ aid ∈ u.awards.map (fun r => r.achievement_id) := by
  simp only [hasAward, List.any_eq_true, decide_eq_true_eq, List.mem_map]

/-- With no award record for the id, the filtered record list is empty. -/
theorem awardCount_eq_zero (u : UserState) (aid : Nat)
    (h : hasAward u aid = false) : awardCount u aid = 0 := by
  unfold awardCount
  rw [List.length_eq_zero, List.filter_eq_nil_iff]
  intro r hr
  simp only [hasAward, List.any_eq_false] at h
  exact h r hr

/-- `awardOne` preserves the uniqueness invariant. -/
theorem awardOne_unique (catalog : List Achievement) (now : Nat)
    (u : UserState) (aid : Nat) (h : UniqueAwards u) :
    UniqueAwards (awardOne catalog now u aid).1 := by
  by_cases hd : hasAward u aid
  · rw [awardOne_dup catalog now u aid hd]
    exact h
  · rcases hf : catalog.find? (fun x => x.id = aid) with _ | a
    · simp [awardOne, hd, hf]
      exact h
    · rw [awardOne_new catalog now u aid a (by simpa using hd) hf]
      unfold UniqueAwards at h ⊢
      simp only [List.map_append, List.map_cons, List.map_nil]
      rw [List.nodup_append]
      refine ⟨h, List.nodup_singleton _, ?_⟩
      rw [List.disjoint_singleton]
      intro hmem
      exact hd ((hasAward_iff_mem u aid).mpr hmem)

/-- `awardOne` preserves point consistency. -/
theorem awardOne_points (catalog : List Achievement) (now : Nat)
    (u : UserState) (aid : Nat) (h : PointsConsistent catalog u) :
    PointsConsistent catalog (awardOne catalog now u aid).1 := by
  by_cases hd : hasAward u aid
  · rw [awardOne_dup catalog now u aid hd]
    exact h
  · rcases hf : catalog.find? (fun x => x.id = aid) with _ | a
    · simp [awardOne, hd, hf]
      exact h
    · rw [awardOne_new catalog now u aid a (by simpa using hd) hf]
      unfold PointsConsistent at h ⊢
      simp [List.map_append, recordPoints, hf, h]

/-- A property preserved by each step of a fold is preserved by the
whole fold. -/
theorem foldl_preserves {α β : Type} (f : β → α → β) (P : β → Prop)
    (hf : ∀ b a, P b → P (f b a)) :
    ∀ (l : List α) (b : β), P b → P (List.foldl f b l) := by
  intro l
  induction l with
  | nil => intro b hb; exact hb
  | cons a t ih => intro b hb; rw [List.foldl_cons]; exact ih _ (hf b a hb)

/-- Every gamification operation preserves the uniqueness invariant. -/
theorem applyOp_unique (catalog : List Achievement) (u : UserState) (op : Op)
    (h : UniqueAwards u) : UniqueAwards (applyOp catalog u op) := by
  cases op with
  | logActivity d =>
      unfold UniqueAwards at h ⊢
      rw [applyOp, updateStreak_awards]
      exact h
  | awardIds now ids =>
      rw [applyOp, award_fst]
      exact foldl_preserves _ UniqueAwards
        (fun v aid hv => awardOne_unique catalog now v aid hv) ids u h

/-- Every gamification operation preserves point consistency. -/
theorem applyOp_points (catalog : List Achievement) (u : UserState) (op : Op)
    (h : PointsConsistent catalog u) :
    PointsConsistent catalog (applyOp catalog u op) := by
  cases op with
  | logActivity d =>
      unfold PointsConsistent at h ⊢
      rw [applyOp, updateStreak_awards, updateStreak_points]
      exact h
  | awardIds now ids =>
      rw [applyOp, award_fst]
      exact foldl_preserves _ (PointsConsistent catalog)
        (fun v aid hv => awardOne_points catalog now v aid hv) ids u h

/-- The uniqueness invariant holds at every state reachable from a
freshly registered user. -/
theorem runOps_unique (catalog : List Achievement) (ops : List Op) :
    UniqueAwards (runOps catalog registeredUser ops) := by
  unfold runOps
  exact foldl_preserves _ UniqueAwards
    (fun v op hv => applyOp_unique catalog v op hv) ops registeredUser
    List.nodup_nil

/-- In a list of pairwise-distinct ids, at most one record matches any
given id. -/
theorem filter_length_le_one_of_nodup_map {α : Type} (f : α → Nat) (x : Nat) :
    ∀ l : List α, (l.map f).Nodup → (l.filter (fun r => f r = x)).length ≤ 1 := by
  intro l
  induction l with
  | nil => intro _; simp
  | cons r t ih =>
      intro h
      rw [List.map_cons, List.nodup_cons] at h
      by_cases hr : f r = x
      · have ht : t.filter (fun r => f r = x) = [] := by
          rw [List.filter_eq_nil_iff]
          intro e he
          simp only [decide_eq_true_eq]
          intro hex
          have : f r ∈ List.map f t := by
            rw [hr, ← hex]
            exact List.mem_map_of_mem f he
          exact h.1 this
        simp [List.filter_cons, hr, ht]
      · simp only [List.filter_cons, hr]
        simpa using ih h.2

/-- C6: after any sequence of streak-tracker and awarding operations
starting from a freshly registered user, `total_points` equals the sum
of the catalog point values of the user's award records. -/
theorem total_points_eq_sum_awards (catalog : List Achievement) (ops : List Op) :
    (runOps catalog registeredUser ops).total_points =
      ((runOps catalog registeredUser ops).awards.map (recordPoints catalog)).sum := by
  have h : PointsConsistent catalog (runOps catalog registeredUser ops) := by
    unfold runOps
    exact foldl_preserves _ (PointsConsistent catalog)
      (fun v op hv => applyOp_points catalog v op hv) ops registeredUser rfl
  exact h

/-- C1: from any reachable state in which the achievement is not yet
awarded, calling `award` twice with the same achievement id leaves
exactly one persisted award record for the pair and adds the point value
exactly once; and at every reachable state each achievement id appears
at most once among the user's award records. -/
theorem award_at_most_once (catalog : List Achievement) (ops ops2 : List Op)
    (aid x : Nat) (a : Achievement) (now1 now2 : Nat)
    (hfind : catalog.find? (fun c => c.id = aid) = some a)
    (hnew : hasAward (runOps catalog registeredUser ops) aid = false) :
    awardCount (award catalog now2
      (award catalog now1 (runOps catalog registeredUser ops) [aid]).1 [aid]).1 aid = 1 ∧
    (award catalog now2
      (award catalog now1 (runOps catalog registeredUser ops) [aid]).1 [aid]).1.total_points =
      (runOps catalog registeredUser ops).total_points + a.points ∧
    awardCount (runOps catalog registeredUser ops2) x ≤ 1 := by
  set base := runOps catalog registeredUser ops with hbase
  have e1 : (award catalog now1 base [aid]).1 =
      { base with
        awards := base.awards ++
          [{ achievement_id := aid, earned_at := now1, displayed := false }]
        total_points := base.total_points + a.points
        level := levelOf (base.total_points + a.points)
        notifications := base.notifications ++ [aid] } := by
    rw [award_singleton]
    exact awardOne_new catalog now1 base aid a hnew hfind
  have hdup : hasAward (award catalog now1 base [aid]).1 aid = true := by
    rw [e1]
    simp [hasAward, List.any_append]
  have e2 : (award catalog now2 (award catalog now1 base [aid]).1 [aid]).1 =
      (award catalog now1 base [aid]).1 := by
    rw [award_singleton, awardOne_dup catalog now2 _ aid hdup]
  refine ⟨?_, ?_, ?_⟩
  · rw [e2, e1]
    unfold awardCount
    have hz : base.awards.filter (fun r => r.achievement_id = aid) = [] := by
      rw [List.filter_eq_nil_iff]
      intro r hr
      simp only [hasAward, List.any_eq_false] at hnew
      exact hnew r hr
    simp [List.filter_append, hz]
  · rw [e2, e1]
  · unfold awardCount
    have hu : (List.map (fun r => r.achievement_id)
        (runOps catalog registeredUser ops2).awards).Nodup :=
      runOps_unique catalog ops2
    exact filter_length_le_one_of_nodup_map
      (fun r : AwardRecord => r.achievement_id) x _ hu

/-- Witness for C1: awarding the 5-day badge twice to a fresh user gives
one record and 20 points, and the duplicate-id batch leaves at most one
record. -/
theorem award_at_most_once_witness :
    awardCount (award sampleCatalog 0
      (award sampleCatalog 0 (runOps sampleCatalog registeredUser []) [1]).1 [1]).1 1 = 1 ∧
    (award sampleCatalog 0
      (award sampleCatalog 0 (runOps sampleCatalog registeredUser []) [1]).1 [1]).1.total_points =
      (runOps sampleCatalog registeredUser []).total_points + 20 ∧
    awardCount (runOps sampleCatalog registeredUser [Op.awardIds 0 [1, 1]]) 1 ≤ 1 :=
  award_at_most_once sampleCatalog [] [Op.awardIds 0 [1, 1]] 1 1
    { id := 1, points := 20, requirement_type := "streak", requirement_value := 5 }
    0 0 (by decide) (by decide)

/-- C5: `evaluate` returns exactly the ids of catalog achievements not
already awarded whose resolved metric meets the threshold — hence every
newly-qualifying id when several thresholds of one requirement type are
crossed at once, not only the highest — and the returned ids follow
catalog order; `evaluate` itself writes nothing. -/
theorem evaluate_characterization (catalog : List Achievement)
    (aggregate : String → Nat) (u : UserState) (aid : Nat) :
    (aid ∈ evaluate catalog aggregate u ↔
      ∃ a ∈ catalog, a.id = aid ∧ hasAward u aid = false ∧
        a.requirement_value ≤ resolveMetric u aggregate a.requirement_type) ∧
    (evaluate catalog aggregate u).Sublist (catalog.map (fun a => a.id)) := by
  constructor
  · constructor
    · intro h
      unfold evaluate at h
      rw [List.mem_map] at h
      obtain ⟨a, ha, haid⟩ := h
      rw [List.mem_filter] at ha
      obtain ⟨hmem, hp⟩ := ha
      rw [Bool.and_eq_true, Bool.not_eq_true'] at hp
      refine ⟨a, hmem, haid, ?_, ?_⟩
      · rw [← haid]
        exact hp.1
      · have h2 := hp.2
        simpa using h2
    · rintro ⟨a, hmem, haid, hnew, hq⟩
      unfold evaluate
      rw [List.mem_map]
      refine ⟨a, ?_, haid⟩
      rw [List.mem_filter]
      refine ⟨hmem, ?_⟩
      rw [Bool.and_eq_true, Bool.not_eq_true']
      exact ⟨by rw [haid]; exact hnew, by simpa using hq⟩
  · unfold evaluate
    exact List.Sublist.map _ (List.filter_sublist _)

/-- Witness for C5: a user whose streak jumped to 8 qualifies for both
the 5-day and the 7-day badge at once. -/
theorem evaluate_characterization_witness :
    1 ∈ evaluate sampleCatalog (fun _ => 0) { sampleUser with current_streak := 8 } ∧
    2 ∈ evaluate sampleCatalog (fun _ => 0) { sampleUser with current_streak := 8 } :=
  ⟨((evaluate_characterization sampleCatalog (fun _ => 0)
      { sampleUser with current_streak := 8 } 1).1).mpr
    ⟨{ id := 1, points := 20, requirement_type := "streak", requirement_value := 5 },
      by decide, rfl, rfl, by decide⟩,
   ((evaluate_characterization sampleCatalog (fun _ => 0)
      { sampleUser with current_streak := 8 } 2).1).mpr
    ⟨{ id := 2, points := 30, requirement_type := "streak", requirement_value := 7 },
      by decide, rfl, rfl, by decide⟩⟩

/-! ### Claims about the entry endpoints' get-or-create path -/

/-- Without a form `health_data_id`, the nutrition endpoint's
`health_data` table is whatever the get-or-create block leaves. -/
theorem add_nutrition_entry_none (s : AppState) (u : Nat) (t : Int) :
    (add_nutrition_entry s u none t).health_data =
      (getOrCreateToday s u t).1.health_data := rfl

/-- Without a form `health_data_id`, the activity endpoint's
`health_data` table is whatever the get-or-create block leaves. -/
theorem add_activity_entry_none (s : AppState) (u : Nat) (t : Int) :
    (add_activity_entry s u none t).health_data =
      (getOrCreateToday s u t).1.health_data := rfl

/-- Without a form `health_data_id`, the nutrition endpoint runs the
get-or-create block and appends one `NutritionEntry` row whose
`health_data_id` is exactly the id that block returned. -/
theorem add_nutrition_entry_none_eq (s : AppState) (u : Nat) (t : Int) :
    add_nutrition_entry s u none t =
      { (getOrCreateToday s u t).1 with
        nutrition_entries := (getOrCreateToday s u t).1.nutrition_entries ++
          [{ id := (getOrCreateToday s u t).1.next_entry_id,
             health_data_id := (getOrCreateToday s u t).2 }]
        next_entry_id := (getOrCreateToday s u t).1.next_entry_id + 1 } := rfl

/-- Without a form `health_data_id`, the activity endpoint runs the
get-or-create block and appends one `ActivityEntry` row whose
`health_data_id` is exactly the id that block returned. -/
theorem add_activity_entry_none_eq (s : AppState) (u : Nat) (t : Int) :
    add_activity_entry s u none t =
      { (getOrCreateToday s u t).1 with
        activity_entries := (getOrCreateToday s u t).1.activity_entries ++
          [{ id := (getOrCreateToday s u t).1.next_entry_id,
             health_data_id := (getOrCreateToday s u t).2 }]
        next_entry_id := (getOrCreateToday s u t).1.next_entry_id + 1 } := rfl

/-- One get-or-create step leaves at most `max(previous count, 1)` rows
for any (user, day) pair. -/
theorem getOrCreateToday_count_le (s : AppState) (u : Nat) (t : Int)
    (uid : Nat) (d : Int) :
    healthDataCount (getOrCreateToday s u t).1 uid d ≤
      max (healthDataCount s uid d) 1 := by
  rcases hf : findTodayHealthData s u t with _ | r
  · simp only [getOrCreateToday, hf]
    unfold healthDataCount
    rw [List.filter_append]
    by_cases he : u = uid ∧ t = d
    · obtain ⟨rfl, rfl⟩ := he
      have h0 : s.health_data.filter (fun r => r.user_id = u && r.day = t) = [] := by
        rw [List.filter_eq_nil_iff]
        unfold findTodayHealthData at hf
        rw [List.find?_eq_none] at hf
        exact hf
      rw [h0]
      simp
    · have hone : (List.filter (fun r => r.user_id = uid && r.day = d)
          [{ id := s.next_health_data_id, user_id := u, day := t : HealthDataRec }]) = [] := by
        rw [List.filter_eq_nil_iff]
        intro r hr
        rw [List.mem_singleton] at hr
        subst hr
        simp only [Bool.and_eq_true, decide_eq_true_eq, not_and]
        intro h1 h2
        exact he ⟨h1, h2⟩
      rw [hone, List.length_append]
      simp
  · simp only [getOrCreateToday, hf]
    exact le_max_left _ _

/-- One entry-endpoint call leaves at most `max(previous count, 1)`
`HealthData` rows for any (user, day) pair. -/
theorem applyEntryOp_count_le (s : AppState) (op : EntryOp) (uid : Nat) (d : Int) :
    healthDataCount (applyEntryOp s op) uid d ≤ max (healthDataCount s uid d) 1 := by
  have key : ∀ (u : Nat) (hid : Option Nat) (t : Int),
      healthDataCount (if missingId hid = true then getOrCreateToday s u t
        else (s, hid.getD 0)).1 uid d ≤ max (healthDataCount s uid d) 1 := by
    intro u hid t
    by_cases hm : missingId hid = true
    · rw [if_pos hm]
      exact getOrCreateToday_count_le s u t uid d
    · rw [if_neg hm]
      exact le_max_left _ _
  cases op with
  | nutrition u hid t => exact key u hid t
  | activity u hid t => exact key u hid t

/-- Any sequence of entry-endpoint calls leaves at most
`max(initial count, 1)` `HealthData` rows per (user, day) pair. -/
theorem runEntryOps_count_le (uid : Nat) (d : Int) :
    ∀ (ops : List EntryOp) (s : AppState),
      healthDataCount (runEntryOps s ops) uid d ≤
        max (healthDataCount s uid d) 1 := by
  intro ops
  induction ops with
  | nil => intro s; exact le_max_left _ _
  | cons op t ih =>
      intro s
      unfold runEntryOps
      rw [List.foldl_cons]
      calc (List.foldl applyEntryOp (applyEntryOp s op) t |> healthDataCount) uid d
          ≤ max (healthDataCount (applyEntryOp s op) uid d) 1 := ih (applyEntryOp s op)
        _ ≤ max (max (healthDataCount s uid d) 1) 1 :=
            max_le_max (applyEntryOp_count_le s op uid d) (le_refl 1)
        _ = max (healthDataCount s uid d) 1 := by rw [max_assoc, max_self]

/-- C10: called without a `health_data_id`, the entry endpoints reuse
the user's existing `HealthData` row for the current calendar day —
attaching the new entry to that row's id — and create a fresh row only
when none exists, attaching the new entry to the fresh row's id; hence
a sequential run of these endpoints keeps at most one `HealthData` row
per user per calendar day, from any state that already satisfies that
bound. -/
theorem health_data_get_or_create (s : AppState) (u : Nat) (t : Int) :
    (∀ r, findTodayHealthData s u t = some r →
      (add_nutrition_entry s u none t).health_data = s.health_data ∧
      (add_activity_entry s u none t).health_data = s.health_data ∧
      (add_nutrition_entry s u none t).nutrition_entries =
        s.nutrition_entries ++ [{ id := s.next_entry_id, health_data_id := r.id }] ∧
      (add_activity_entry s u none t).activity_entries =
        s.activity_entries ++ [{ id := s.next_entry_id, health_data_id := r.id }]) ∧
    (findTodayHealthData s u t = none →
      (add_nutrition_entry s u none t).health_data =
        s.health_data ++ [{ id := s.next_health_data_id, user_id := u, day := t }] ∧
      (add_activity_entry s u none t).health_data =
        s.health_data ++ [{ id := s.next_health_data_id, user_id := u, day := t }] ∧
      (add_nutrition_entry s u none t).nutrition_entries =
        s.nutrition_entries ++
          [{ id := s.next_entry_id, health_data_id := s.next_health_data_id }] ∧
      (add_activity_entry s u none t).activity_entries =
        s.activity_entries ++
          [{ id := s.next_entry_id, health_data_id := s.next_health_data_id }]) ∧
    (∀ (ops : List EntryOp) (uid : Nat) (d : Int),
      healthDataCount s uid d ≤ 1 →
      healthDataCount (runEntryOps s ops) uid d ≤ 1) := by
  refine ⟨fun r hr => ⟨?_, ?_, ?_, ?_⟩, fun hn => ⟨?_, ?_, ?_, ?_⟩,
    fun ops uid d hle => ?_⟩
  · rw [add_nutrition_entry_none]
    simp only [getOrCreateToday, hr]
  · rw [add_activity_entry_none]
    simp only [getOrCreateToday, hr]
  · rw [add_nutrition_entry_none_eq]
    simp only [getOrCreateToday, hr]
  · rw [add_activity_entry_none_eq]
    simp only [getOrCreateToday, hr]
  · rw [add_nutrition_entry_none]
    simp only [getOrCreateToday, hn]
  · rw [add_activity_entry_none]
    simp only [getOrCreateToday, hn]
  · rw [add_nutrition_entry_none_eq]
    simp only [getOrCreateToday, hn]
  · rw [add_activity_entry_none_eq]
    simp only [getOrCreateToday, hn]
  · exact le_trans (runEntryOps_count_le uid d ops s) (max_le hle (le_refl 1))

/-- Witness for C10: from an empty database, the first no-id nutrition
call creates row 1 and attaches its entry to it, and three no-id entry
calls on one day leave at most one `HealthData` row for that user and
day. -/
theorem health_data_get_or_create_witness :
    healthDataCount (runEntryOps emptyApp
      [EntryOp.nutrition 1 none 0, EntryOp.activity 1 none 0,
       EntryOp.nutrition 1 none 0]) 1 0 ≤ 1 ∧
    (add_nutrition_entry emptyApp 1 none 0).nutrition_entries =
      emptyApp.nutrition_entries ++
        [{ id := emptyApp.next_entry_id,
           health_data_id := emptyApp.next_health_data_id }] :=
  ⟨(health_data_get_or_create emptyApp 1 0).2.2
    [EntryOp.nutrition 1 none 0, EntryOp.activity 1 none 0,
     EntryOp.nutrition 1 none 0] 1 0 (by decide),
   ((health_data_get_or_create emptyApp 1 0).2.1 rfl).2.2.1⟩

end HealthTracker

